import Mathlib

/-!
Verification of the ERD diagram editor core (tables, fields, relationships,
canvas interaction handlers) against its specification.  All definitions are
shallow embeddings of the TypeScript source files:
  src/types.ts            (data model)
  src/utils/geometry.ts   (getIntersection, getCenter)
  src/components/Canvas.tsx   (canvas handlers, routing, color assignment)
  src/components/TableNode.tsx (field removal)
  src/App.tsx             (JSON import handler)
Numbers are modeled with the exact rationals; JavaScript string truthiness
(empty string is falsy) is modeled explicitly where the source relies on it.
-/

namespace ERD

/-- World-space point (src/types.ts, interface Point). -/
@[ext]
structure Point where
  x : ℚ
  y : ℚ
deriving DecidableEq

/-- Rectangle size (src/types.ts, interface Size). -/
structure Size where
  width : ℚ
  height : ℚ
deriving DecidableEq

/-- Field of a table (src/types.ts, interface Field).  The FieldType union of
string literals is kept as a plain string. -/
structure Field where
  id : String
  name : String
  type : String
  isPrimaryKey : Bool
  isForeignKey : Bool
  isNullable : Bool
  description : Option String := none
deriving DecidableEq

/-- Table node (src/types.ts, interface Table). -/
structure Table where
  id : String
  name : String
  x : ℚ
  y : ℚ
  fields : List Field
  description : Option String := none
  imageUrl : Option String := none
  width : Option ℚ := none
  isComplete : Option Bool := none
deriving DecidableEq

/-- Relationship between two tables, optionally pinned to specific fields
(src/types.ts, interface Relationship).  The Cardinality union is kept as a
plain string. -/
structure Relationship where
  id : String
  sourceTableId : String
  sourceFieldId : Option String := none
  targetTableId : String
  targetFieldId : Option String := none
  cardinality : String
  label : Option String := none
  color : Option String := none
deriving DecidableEq

/-- In-progress connection endpoint (src/components/Canvas.tsx,
interface ConnectionState). -/
structure ConnectionState where
  tableId : String
  fieldId : Option String := none
deriving DecidableEq

/-- JavaScript truthiness of an optional string: undefined and the empty
string are falsy, every other string is truthy. -/
def strTruthy : Option String → Bool
  | none => false
  | some s => !(s == "")

/-! ## Geometry module (src/utils/geometry.ts) -/

/-- Intersection point between the line from center1 to center2 and the
boundary of the axis-aligned rectangle of size1 centered at center1
(src/utils/geometry.ts, getIntersection). -/
def getIntersection (center1 : Point) (size1 : Size) (center2 : Point) : Point :=
  let dx := center2.x - center1.x
  let dy := center2.y - center1.y
  if dx = 0 ∧ dy = 0 then center1
  else
    let aspect := size1.width / size1.height
    let absDx := |dx|
    let absDy := |dy|
    let scale :=
      if absDx > aspect * absDy then (size1.width / 2) / absDx
      else (size1.height / 2) / absDy
    { x := center1.x + dx * scale, y := center1.y + dy * scale }

/-- Center of a rectangle (src/utils/geometry.ts, getCenter). -/
def getCenter (x y width height : ℚ) : Point :=
  { x := x + width / 2, y := y + height / 2 }

/-! ## Canvas constants (src/components/Canvas.tsx) -/

/-- Fixed table render size (src/components/Canvas.tsx, TABLE_SIZE). -/
def TABLE_SIZE : Size := { width := 280, height := 200 }

/-- Fixed relationship color palette (src/components/Canvas.tsx,
CONNECTION_COLORS). -/
def CONNECTION_COLORS : List String :=
  ["#ef4444", "#f97316", "#f59e0b", "#84cc16", "#10b981", "#06b6d4",
   "#3b82f6", "#8b5cf6", "#d946ef", "#f43f5e", "#6366f1", "#14b8a6"]

/-! ## Geometry helpers of the canvas (src/components/Canvas.tsx) -/

/-- Height of the description block of a table
(src/components/Canvas.tsx, getTableDescHeight).  The source computes
Math.ceil(length / 42) * 16 + 10 when the description string is truthy and 0
otherwise; the ceiling of the division is modeled by natural division
(length + 41) / 42, which agrees with it for every truthy (nonempty) string. -/
def getTableDescHeight (t : Table) : ℚ :=
  match t.description with
  | none => 0
  | some s => if s == "" then 0 else (((s.length + 41) / 42 : ℕ) : ℚ) * 16 + 10

/-- Height contributed by an attached image, 128 when truthy
(src/components/Canvas.tsx, inside calculateTableHeight). -/
def imageBlockHeight (t : Table) : ℚ :=
  if strTruthy t.imageUrl then 128 else 0

/-- Full rendered height of a table
(src/components/Canvas.tsx, calculateTableHeight). -/
def calculateTableHeight (t : Table) : ℚ :=
  (40 + 8 + 35) + (t.fields.length : ℚ) * 33 + getTableDescHeight t + imageBlockHeight t

/-- Anchor point of a field handle, or the table center when no field id is
given, the id is falsy, or the id is not found
(src/components/Canvas.tsx, getFieldPosition). -/
def getFieldPosition (t : Table) (fieldId : Option String) : Point :=
  match fieldId with
  | none => getCenter t.x t.y TABLE_SIZE.width (calculateTableHeight t)
  | some fid =>
    if fid == "" then getCenter t.x t.y TABLE_SIZE.width (calculateTableHeight t)
    else
      match t.fields.findIdx? (fun f => f.id == fid) with
      | none => getCenter t.x t.y TABLE_SIZE.width (calculateTableHeight t)
      | some fieldIndex =>
        { x := t.x + TABLE_SIZE.width,
          y := t.y + (40 + getTableDescHeight t + imageBlockHeight t + 8
                       + (fieldIndex : ℚ) * 33 + 33 / 2) }

/-! ## Canvas interaction handlers (src/components/Canvas.tsx) -/

/-- One wheel event updating the zoom
(src/components/Canvas.tsx, handleWheel). -/
def handleWheel (z : ℚ) (deltaY : ℚ) : ℚ :=
  let zoomSensitivity : ℚ := 1 / 1000
  let delta := -deltaY * zoomSensitivity
  min (max (1 / 5) (z + delta)) 3

/-- Table update restricted to replacing the field list, the shape used by
field removal (src/components/Canvas.tsx, handleTableUpdate). -/
def handleTableUpdateFields (tables : List Table) (id : String) (newFields : List Field) :
    List Table :=
  tables.map (fun t => if t.id == id then { t with fields := newFields } else t)

/-- Table deletion together with its relationship cascade
(src/components/Canvas.tsx, handleTableDelete). -/
def handleTableDelete (tables : List Table) (relationships : List Relationship)
    (id : String) : List Table × List Relationship :=
  (tables.filter (fun t => !(t.id == id)),
   relationships.filter (fun r => !(r.sourceTableId == id) && !(r.targetTableId == id)))

/-- Field removal as performed by the table node: the field is filtered out of
the field list of its table and pushed through handleTableUpdate; the
relationship collection is not touched by this path
(src/components/TableNode.tsx, handleRemoveField together with
src/components/Canvas.tsx, handleTableUpdate). -/
def handleRemoveField (tables : List Table) (relationships : List Relationship)
    (table : Table) (fieldId : String) : List Table × List Relationship :=
  (handleTableUpdateFields tables table.id
     (table.fields.filter (fun f => !(f.id == fieldId))),
   relationships)

/-- Duplicate test used by handleConnect: same ordered endpoints or the exact
mirror (src/components/Canvas.tsx, the exists check in handleConnect). -/
def relDup (r : Relationship) (start endp : ConnectionState) : Bool :=
  ((r.sourceTableId == start.tableId) && (r.targetTableId == endp.tableId)
    && (r.sourceFieldId == start.fieldId) && (r.targetFieldId == endp.fieldId))
  ||
  ((r.sourceTableId == endp.tableId) && (r.targetTableId == start.tableId)
    && (r.sourceFieldId == endp.fieldId) && (r.targetFieldId == start.fieldId))

/-- Predicate of color steps 1 and 2: an existing relationship attached to the
given (table, field) endpoint, outgoing or incoming
(src/components/Canvas.tsx, handleConnect color logic). -/
def fieldInheritPred (cs : ConnectionState) (rel : Relationship) : Bool :=
  ((rel.sourceTableId == cs.tableId) && (rel.sourceFieldId == cs.fieldId))
  || ((rel.targetTableId == cs.tableId) && (rel.targetFieldId == cs.fieldId))

/-- Predicate of color steps 3 and 4: any relationship touching the table
(src/components/Canvas.tsx, handleConnect color logic). -/
def tableInheritPred (tid : String) (rel : Relationship) : Bool :=
  (rel.sourceTableId == tid) || (rel.targetTableId == tid)

/-- The color of a relationship when it is truthy, mirroring the source guard
if (r?.color) (src/components/Canvas.tsx, handleConnect color logic). -/
def colorIfTruthy (r : Relationship) : Option String :=
  match r.color with
  | some c => if c == "" then none else some c
  | none => none

/-- Color steps 1 and 2: inherit from the first relationship found on the
specific endpoint field, provided the endpoint names a truthy field id and the
found relationship carries a truthy color
(src/components/Canvas.tsx, handleConnect color logic). -/
def inheritFieldColor (rels : List Relationship) (cs : ConnectionState) : Option String :=
  if strTruthy cs.fieldId then
    match rels.find? (fieldInheritPred cs) with
    | some r => colorIfTruthy r
    | none => none
  else none

/-- Color steps 3 and 4: inherit from the first relationship found touching
the table, provided it carries a truthy color
(src/components/Canvas.tsx, handleConnect color logic). -/
def inheritTableColor (rels : List Relationship) (tid : String) : Option String :=
  match rels.find? (tableInheritPred tid) with
  | some r => colorIfTruthy r
  | none => none

/-- Step 5: a palette pick.  The source draws
CONNECTION_COLORS[Math.floor(Math.random() * CONNECTION_COLORS.length)];
the random index is abstracted into the parameter k reduced modulo the
palette length, so every possible draw of the source is covered. -/
def palettePick (k : ℕ) : String :=
  CONNECTION_COLORS.getD (k % CONNECTION_COLORS.length) "#3b82f6"

/-- The full color cascade of handleConnect, steps 1 to 5 in source order
(src/components/Canvas.tsx, handleConnect color logic). -/
def chooseColor (rels : List Relationship) (start endp : ConnectionState) (k : ℕ) : String :=
  match inheritFieldColor rels start with
  | some c => c
  | none =>
    match inheritFieldColor rels endp with
    | some c => c
    | none =>
      match inheritTableColor rels start.tableId with
      | some c => c
      | none =>
        match inheritTableColor rels endp.tableId with
        | some c => c
        | none => palettePick k

/-- The record built as const newRel inside handleConnect
(src/components/Canvas.tsx, handleConnect). -/
def newRelationship (rels : List Relationship) (start endp : ConnectionState)
    (newId : String) (k : ℕ) : Relationship :=
  { id := newId,
    sourceTableId := start.tableId, sourceFieldId := start.fieldId,
    targetTableId := endp.tableId, targetFieldId := endp.fieldId,
    cardinality := "1:N",
    color := some (chooseColor rels start endp k) }

/-- Completion branch of the connect gesture: with a pending connectionStart,
a click on the endpoint (tableId, fieldId) either cancels (same endpoint),
silently ignores a duplicate, or appends a new relationship with cardinality
1:N and the cascaded color (src/components/Canvas.tsx, handleConnect, else
branch).  newId stands for the generated uuid and k for the random palette
draw. -/
def handleConnect (rels : List Relationship) (start endp : ConnectionState)
    (newId : String) (k : ℕ) : List Relationship :=
  if (start.tableId == endp.tableId) && (start.fieldId == endp.fieldId) then rels
  else if rels.any (fun r => relDup r start endp) then rels
  else rels ++ [newRelationship rels start endp newId k]

/-- Unlink a field: drop every relationship attached to the given field
(src/components/Canvas.tsx, handleDisconnectField). -/
def handleDisconnectField (rels : List Relationship) (tableId fieldId : String) :
    List Relationship :=
  rels.filter (fun r =>
    !(((r.sourceTableId == tableId) && (r.sourceFieldId == some fieldId))
      || ((r.targetTableId == tableId) && (r.targetFieldId == some fieldId))))

/-- Delete one relationship by id
(src/components/Canvas.tsx, handleRelationshipDelete). -/
def handleRelationshipDelete (rels : List Relationship) (id : String) : List Relationship :=
  rels.filter (fun r => !(r.id == id))

/-- Recolor one relationship by id
(src/components/Canvas.tsx, handleColorChange). -/
def handleColorChange (rels : List Relationship) (relationshipId : String)
    (newColor : String) : List Relationship :=
  rels.map (fun r => if r.id == relationshipId then { r with color := some newColor } else r)

/-- Routing decision and anchor pair for one relationship: none when the
source or target table id does not resolve, otherwise the start and end anchor
points of the drawn path (src/components/Canvas.tsx, renderConnectionLine).
The svg path string, control points, arrow angle, color and opacity of the
real renderer are display data derived from these two points and are not
modeled further. -/
def renderConnectionLine (tables : List Table) (r : Relationship) :
    Option (Point × Point) :=
  match tables.find? (fun t => t.id == r.sourceTableId),
        tables.find? (fun t => t.id == r.targetTableId) with
  | some source, some target =>
    let isFieldConnection := strTruthy r.sourceFieldId || strTruthy r.targetFieldId
    if isFieldConnection then
      let p1 := if strTruthy r.sourceFieldId then getFieldPosition source r.sourceFieldId
                else getCenter source.x source.y TABLE_SIZE.width (calculateTableHeight source)
      let p2 := if strTruthy r.targetFieldId then getFieldPosition target r.targetFieldId
                else getCenter target.x target.y TABLE_SIZE.width (calculateTableHeight target)
      if source.x < target.x then
        let p2a := if strTruthy r.targetFieldId then { p2 with x := target.x } else p2
        some (p1, p2a)
      else
        let p1a := if strTruthy r.sourceFieldId then { p1 with x := source.x } else p1
        some (p1a, p2)
    else
      let sourceH := calculateTableHeight source
      let targetH := calculateTableHeight target
      let sourceCenter := getCenter source.x source.y TABLE_SIZE.width sourceH
      let targetCenter := getCenter target.x target.y TABLE_SIZE.width targetH
      some (getIntersection sourceCenter { width := TABLE_SIZE.width, height := sourceH } targetCenter,
            getIntersection targetCenter { width := TABLE_SIZE.width, height := targetH } sourceCenter)
  | _, _ => none

/-! ## JSON import (src/App.tsx, handleFileChange) -/

/-- Parsed JSON value, the possible results of JSON.parse. -/
inductive Json where
  | jnull
  | jbool (b : Bool)
  | jnum (q : ℚ)
  | jstr (s : String)
  | jarr (items : List Json)
  | jobj (entries : List (String × Json))

/-- JavaScript truthiness of a parsed JSON value. -/
def jsTruthy : Json → Bool
  | .jnull => false
  | .jbool b => b
  | .jnum q => !(q == 0)
  | .jstr s => !(s == "")
  | .jarr _ => true
  | .jobj _ => true

/-- Array.isArray. -/
def isArray : Json → Bool
  | .jarr _ => true
  | _ => false

/-- JavaScript member access on a parsed value: throws (error) on null,
returns the property or undefined (none) otherwise; non-object values have no
own properties. -/
def jsGetMember (v : Json) (key : String) : Except Unit (Option Json) :=
  match v with
  | .jnull => .error ()
  | .jobj entries => .ok ((entries.find? (fun e => e.1 == key)).map (fun e => e.2))
  | _ => .ok none

/-- Truthiness of a possibly undefined member value. -/
def undefTruthy : Option Json → Bool
  | none => false
  | some v => jsTruthy v

/-- Array.isArray of a possibly undefined member value. -/
def undefIsArray : Option Json → Bool
  | none => false
  | some v => isArray v

/-- The import handler (src/App.tsx, handleFileChange onload body).  The state
holds the current tables and relationships values as stored (the source casts
the accepted arrays without validating their elements).  The input is the
result of JSON.parse, none when parsing threw.  Returns the next state and
whether an error alert was shown; every failure path (parse throw, member
access throw on null, missing member, non-array member) alerts and leaves the
state untouched. -/
def handleFileChange (st : Json × Json) (parsed : Option Json) : (Json × Json) × Bool :=
  match parsed with
  | none => (st, true)
  | some data =>
    match jsGetMember data "tables", jsGetMember data "relationships" with
    | .ok mt, .ok mr =>
      if undefTruthy mt && undefIsArray mt && undefTruthy mr && undefIsArray mr then
        ((mt.getD .jnull, mr.getD .jnull), false)
      else (st, true)
    | _, _ => (st, true)

/-- Specification-side predicate: the value has the named member and that
member is an array. -/
def hasArrayMember (d : Json) (key : String) : Bool :=
  match d with
  | .jobj entries =>
    match (entries.find? (fun e => e.1 == key)).map (fun e => e.2) with
    | some (Json.jarr _) => true
    | _ => false
  | _ => false

/-! ## Concrete inputs used by counterexamples and witnesses -/

/-- A sample field, used by the C1 input. -/
def fieldC1 : Field :=
  { id := "f1", name := "a", type := "INT",
    isPrimaryKey := false, isForeignKey := false, isNullable := true }

/-- A sample table owning fieldC1, used by the C1 input. -/
def tableC1 : Table :=
  { id := "t1", name := "T", x := 0, y := 0, fields := [fieldC1] }

/-- A second table with a different id, used by the C1 witness. -/
def tableC1w : Table :=
  { id := "t9", name := "U", x := 0, y := 0, fields := [] }

/-- A relationship whose source field is fieldC1, used by the C1 input. -/
def relC1 : Relationship :=
  { id := "r1", sourceTableId := "t1", sourceFieldId := some "f1",
    targetTableId := "t2", cardinality := "1:N" }

/-- Connect endpoint on table T1, field F1, used by the C3 witness. -/
def csA : ConnectionState := { tableId := "T1", fieldId := some "F1" }

/-- Connect endpoint on the whole table T2, used by the C3 witness. -/
def csB : ConnectionState := { tableId := "T2", fieldId := none }

/-- A relationship already connecting csA to csB, used by the C3 witness. -/
def relC3 : Relationship :=
  { id := "r", sourceTableId := "T1", sourceFieldId := some "F1",
    targetTableId := "T2", targetFieldId := none, cardinality := "1:N" }

/-! ## C4 -/

/-- C4: deleting a table removes every table carrying the deleted id and
exactly those relationships whose source or target table id equals the deleted
id; all other tables and relationships survive, in their original order. -/
theorem C4_table_delete_exact (tables : List Table) (rels : List Relationship)
    (id : String) :
    (∀ t, t ∈ (handleTableDelete tables rels id).1 ↔ (t ∈ tables ∧ t.id ≠ id)) ∧
    (∀ r, r ∈ (handleTableDelete tables rels id).2 ↔
      (r ∈ rels ∧ r.sourceTableId ≠ id ∧ r.targetTableId ≠ id)) ∧
    (handleTableDelete tables rels id).1.Sublist tables ∧
    (handleTableDelete tables rels id).2.Sublist rels := by
  refine ⟨?_, ?_, List.filter_sublist _, List.filter_sublist _⟩ <;> intro a <;>
    simp [handleTableDelete, List.mem_filter, and_assoc]

/-- Witness for C4 at a concrete input: the surviving tables form a sublist
of the original tables. -/
theorem C4_table_delete_exact_witness :
    (handleTableDelete [tableC1] [relC1] "t1").1.Sublist [tableC1] :=
  (C4_table_delete_exact [tableC1] [relC1] "t1").2.2.1

/-! ## C7 -/

/-- One wheel event always lands inside the zoom bounds, whatever the previous
zoom value was. -/
lemma handleWheel_mem_Icc (z d : ℚ) :
    1 / 5 ≤ handleWheel z d ∧ handleWheel z d ≤ 3 := by
  unfold handleWheel
  exact ⟨le_min (le_max_left _ _) (by norm_num), min_le_right _ _⟩

/-- C7: starting from any zoom in the interval from 0.2 to 3, any finite
sequence of wheel events, each adding a delta proportional to the negated
scroll delta and clamping, keeps the zoom inside the interval. -/
theorem C7_zoom_bounded (z : ℚ) (h1 : 1 / 5 ≤ z) (h2 : z ≤ 3) (events : List ℚ) :
    1 / 5 ≤ events.foldl handleWheel z ∧ events.foldl handleWheel z ≤ 3 := by
  induction events generalizing z with
  | nil => exact ⟨h1, h2⟩
  | cons d ds ih => exact ih _ (handleWheel_mem_Icc z d).1 (handleWheel_mem_Icc z d).2

/-- Witness for C7 at the concrete start zoom 1 and the concrete wheel deltas
300 and -10000. -/
theorem C7_zoom_bounded_witness :
    1 / 5 ≤ ([(300 : ℚ), -10000].foldl handleWheel 1) ∧
      ([(300 : ℚ), -10000].foldl handleWheel 1) ≤ 3 :=
  C7_zoom_bounded 1 (by norm_num) (by norm_num) [300, -10000]

/-! ## C1 -/

/-- C1 counterexample: on a table with one field f1 and one relationship whose
source field is f1, removing f1 leaves the relationship collection unchanged,
so the relationship referencing the removed field is NOT removed, contradicting
the claim that field removal removes every relationship referencing the field. -/
theorem C1_counterexample :
    (handleRemoveField [tableC1] [relC1] tableC1 "f1").2 = [relC1] ∧
    relC1.sourceFieldId = some "f1" ∧
    (handleRemoveField [tableC1] [relC1] tableC1 "f1").2 ≠
      [relC1].filter
        (fun r => !((r.sourceFieldId == some "f1") || (r.targetFieldId == some "f1"))) := by
  refine ⟨rfl, rfl, ?_⟩
  decide

/-- C1 amended: removing a field removes exactly that field from the owning
table and leaves every other table untouched, but the relationship collection
is left completely unchanged: relationships whose source or target field
equals the removed field id are NOT removed (they dangle and are handled at
render time). -/
theorem C1_remove_field_amended (tables : List Table) (rels : List Relationship)
    (table : Table) (fieldId : String) :
    (handleRemoveField tables rels table fieldId).2 = rels ∧
    (∀ t ∈ (handleRemoveField tables rels table fieldId).1,
      t.id = table.id → ∀ f ∈ t.fields, f.id ≠ fieldId) ∧
    (∀ t ∈ tables, t.id ≠ table.id → t ∈ (handleRemoveField tables rels table fieldId).1) := by
  refine ⟨rfl, ?_, ?_⟩
  · intro t ht htid f hf
    rcases List.mem_map.mp ht with ⟨t0, _, himg⟩
    by_cases hc : (t0.id == table.id) = true
    · rw [if_pos hc] at himg
      rw [← himg] at hf
      have := (List.mem_filter.mp hf).2
      simpa using this
    · rw [if_neg hc] at himg
      rw [← himg] at htid
      simp [htid] at hc
  · intro t ht hne
    exact List.mem_map.mpr ⟨t, ht, by simp [hne]⟩

/-- Witness for the amended C1 at a concrete input: a table with an id other
than the removal target survives field removal unchanged. -/
theorem C1_remove_field_amended_witness :
    tableC1w ∈ (handleRemoveField [tableC1w] [relC1] tableC1 "f1").1 :=
  (C1_remove_field_amended [tableC1w] [relC1] tableC1 "f1").2.2 tableC1w
    (by simp) (by decide)

/-! ## C3 -/

/-- The duplicate test is symmetric in the two endpoints. -/
lemma relDup_swap (r : Relationship) (a b : ConnectionState) :
    relDup r b a = relDup r a b := by
  unfold relDup
  exact Bool.or_comm _ _

/-- The freshly built relationship matches the duplicate test for its own
endpoint pair. -/
lemma relDup_newRelationship (rels : List Relationship) (start endp : ConnectionState)
    (newId : String) (k : ℕ) :
    relDup (newRelationship rels start endp newId k) start endp = true := by
  simp [relDup, newRelationship]

/-- The freshly built relationship also matches the duplicate test for the
mirrored endpoint pair. -/
lemma relDup_newRelationship_swap (rels : List Relationship) (start endp : ConnectionState)
    (newId : String) (k : ℕ) :
    relDup (newRelationship rels start endp newId k) endp start = true := by
  simp [relDup, newRelationship]

/-- C3: completing the connect gesture is a silent no-op when the target
endpoint equals the source endpoint or when an ordered or mirrored duplicate
already exists; consequently a second completion with the same pair, in either
order, changes nothing, and starting from a state with no relationship between
the pair, connecting can never leave more than one relationship between them. -/
theorem C3_connect_idempotent (rels : List Relationship) (start endp : ConnectionState)
    (n1 n2 : String) (k1 k2 : ℕ) :
    handleConnect rels start start n1 k1 = rels ∧
    (rels.any (fun r => relDup r start endp) = true →
      handleConnect rels start endp n1 k1 = rels) ∧
    handleConnect (handleConnect rels start endp n1 k1) start endp n2 k2 =
      handleConnect rels start endp n1 k1 ∧
    handleConnect (handleConnect rels start endp n1 k1) endp start n2 k2 =
      handleConnect rels start endp n1 k1 ∧
    ((rels.filter (fun r => relDup r start endp)).length = 0 →
      ((handleConnect rels start endp n1 k1).filter
        (fun r => relDup r start endp)).length ≤ 1) := by
  have hswap : (fun r => relDup r endp start) = (fun r => relDup r start endp) :=
    funext (fun r => relDup_swap r start endp)
  refine ⟨by simp [handleConnect], ?_, ?_, ?_, ?_⟩
  · intro h
    by_cases h1 : ((start.tableId == endp.tableId) && (start.fieldId == endp.fieldId)) = true
    · unfold handleConnect
      rw [if_pos h1]
    · unfold handleConnect
      rw [if_neg h1, if_pos h]
  · by_cases h1 : ((start.tableId == endp.tableId) && (start.fieldId == endp.fieldId)) = true
    · unfold handleConnect
      rw [if_pos h1, if_pos h1]
    · by_cases h2 : (rels.any fun r => relDup r start endp) = true
      · unfold handleConnect
        rw [if_neg h1, if_pos h2, if_neg h1, if_pos h2]
      · have happ : handleConnect rels start endp n1 k1 =
            rels ++ [newRelationship rels start endp n1 k1] := by
          unfold handleConnect
          rw [if_neg h1, if_neg h2]
        rw [happ]
        unfold handleConnect
        rw [if_neg h1, if_pos]
        rw [List.any_append]
        simp [relDup_newRelationship]
  · by_cases h1 : ((start.tableId == endp.tableId) && (start.fieldId == endp.fieldId)) = true
    · have h1' : ((endp.tableId == start.tableId) && (endp.fieldId == start.fieldId)) = true := by
        simp only [Bool.and_eq_true, beq_iff_eq] at h1 ⊢
        exact ⟨h1.1.symm, h1.2.symm⟩
      unfold handleConnect
      rw [if_pos h1, if_pos h1']
    · have h1' : ¬((endp.tableId == start.tableId) && (endp.fieldId == start.fieldId)) = true := by
        simp only [Bool.and_eq_true, beq_iff_eq] at h1 ⊢
        intro hcon
        exact h1 ⟨hcon.1.symm, hcon.2.symm⟩
      by_cases h2 : (rels.any fun r => relDup r start endp) = true
      · have h2' : (rels.any fun r => relDup r endp start) = true := by
          rw [hswap]; exact h2
        unfold handleConnect
        rw [if_neg h1, if_pos h2, if_neg h1', if_pos h2']
      · have happ : handleConnect rels start endp n1 k1 =
            rels ++ [newRelationship rels start endp n1 k1] := by
          unfold handleConnect
          rw [if_neg h1, if_neg h2]
        rw [happ]
        unfold handleConnect
        rw [if_neg h1', if_pos]
        rw [List.any_append]
        simp [relDup_newRelationship_swap]
  · intro h0
    have h0' : rels.filter (fun r => relDup r start endp) = [] :=
      List.length_eq_zero.mp h0
    by_cases h1 : ((start.tableId == endp.tableId) && (start.fieldId == endp.fieldId)) = true
    · unfold handleConnect
      rw [if_pos h1, h0]
      exact Nat.zero_le _
    · by_cases h2 : (rels.any fun r => relDup r start endp) = true
      · unfold handleConnect
        rw [if_neg h1, if_pos h2, h0]
        exact Nat.zero_le _
      · unfold handleConnect
        rw [if_neg h1, if_neg h2, List.filter_append, h0', List.nil_append]
        exact le_trans (List.length_filter_le _ _) (by simp)

/-- Witness for C3 at a concrete input: re-connecting an already connected
(table, field) pair leaves the relationship list unchanged. -/
theorem C3_connect_idempotent_witness :
    handleConnect [relC3] csA csB "n" 0 = [relC3] :=
  (C3_connect_idempotent [relC3] csA csB "n" "m" 0 0).2.1 (by decide)

/-! ## C10 -/

/-- C10: the connect gesture only ever appends relationships with cardinality
1:N, and no other interactive relationship operation (table delete cascade,
field unlink, relationship delete, recolor) produces a relationship with any
cardinality not already present. -/
theorem C10_interactive_cardinality (rels : List Relationship) (tables : List Table)
    (start endp : ConnectionState) (newId : String) (k : ℕ)
    (tid fid rid c : String) :
    (∀ r ∈ handleConnect rels start endp newId k, r ∈ rels ∨ r.cardinality = "1:N") ∧
    (∀ r ∈ (handleTableDelete tables rels tid).2, r ∈ rels) ∧
    (∀ r ∈ handleDisconnectField rels tid fid, r ∈ rels) ∧
    (∀ r ∈ handleRelationshipDelete rels rid, r ∈ rels) ∧
    (∀ r ∈ handleColorChange rels rid c, ∃ r0 ∈ rels, r.cardinality = r0.cardinality) := by
  refine ⟨?_, ?_, ?_, ?_, ?_⟩
  · intro r hr
    unfold handleConnect at hr
    split at hr
    · exact Or.inl hr
    · split at hr
      · exact Or.inl hr
      · rcases List.mem_append.mp hr with h | h
        · exact Or.inl h
        · simp only [List.mem_singleton] at h
          subst h
          exact Or.inr rfl
  · intro r hr
    exact (List.mem_filter.mp hr).1
  · intro r hr
    exact (List.mem_filter.mp hr).1
  · intro r hr
    exact (List.mem_filter.mp hr).1
  · intro r hr
    rcases List.mem_map.mp hr with ⟨r0, h0, heq⟩
    refine ⟨r0, h0, ?_⟩
    rw [← heq]
    split <;> rfl

/-- Witness for C10 at a concrete input: the single relationship produced by
connecting two fresh tables carries cardinality 1:N. -/
theorem C10_interactive_cardinality_witness :
    { id := "n1", sourceTableId := "T1", sourceFieldId := none,
      targetTableId := "T2", targetFieldId := none,
      cardinality := "1:N", label := none,
      color := some "#ef4444" : Relationship } ∈ ([] : List Relationship) ∨
    ({ id := "n1", sourceTableId := "T1", sourceFieldId := none,
       targetTableId := "T2", targetFieldId := none,
       cardinality := "1:N", label := none,
       color := some "#ef4444" : Relationship }).cardinality = "1:N" :=
  (C10_interactive_cardinality [] [] { tableId := "T1" } { tableId := "T2" }
      "n1" 0 "x" "y" "z" "c").1 _ (by decide)

/-! ## C2 -/

/-- A source table with no fields, used by the C2 input. -/
def tableC2a : Table := { id := "t1", name := "A", x := 0, y := 0, fields := [] }

/-- A target table, used by the C2 input. -/
def tableC2b : Table := { id := "t2", name := "B", x := 500, y := 0, fields := [] }

/-- A relationship whose source field id resolves to no field of its source
table, used by the C2 input. -/
def relC2 : Relationship :=
  { id := "r2", sourceTableId := "t1", sourceFieldId := some "ghost",
    targetTableId := "t2", cardinality := "1:N" }

/-- C2 counterexample: a relationship whose source FIELD id does not resolve
(both table ids do resolve) is still routed, not excluded: the routing engine
produces a path for it, contradicting the claim that any dangling source or
target field id excludes the relationship from routing. -/
theorem C2_counterexample :
    (renderConnectionLine [tableC2a, tableC2b] relC2).isSome = true ∧
    relC2.sourceFieldId = some "ghost" ∧
    tableC2a.fields.findIdx? (fun f => f.id == "ghost") = none := by
  refine ⟨?_, rfl, rfl⟩
  decide

/-- C2 amended: the routing engine excludes a relationship (renders no path)
exactly when its source or target TABLE id no longer resolves; a dangling
FIELD id does not exclude the relationship: the field anchor silently falls
back to the owning table center and the path is still rendered. -/
theorem C2_routing_amended (tables : List Table) (r : Relationship) :
    (renderConnectionLine tables r = none ↔
      tables.find? (fun t => t.id == r.sourceTableId) = none ∨
      tables.find? (fun t => t.id == r.targetTableId) = none) ∧
    (∀ t : Table, ∀ fid : String, ¬fid = "" →
      t.fields.findIdx? (fun f => f.id == fid) = none →
      getFieldPosition t (some fid) =
        getCenter t.x t.y TABLE_SIZE.width (calculateTableHeight t)) := by
  constructor
  · cases hs : tables.find? (fun t => t.id == r.sourceTableId) with
    | none => simp [renderConnectionLine, hs]
    | some source =>
      cases ht : tables.find? (fun t => t.id == r.targetTableId) with
      | none => simp [renderConnectionLine, hs, ht]
      | some target =>
        simp only [renderConnectionLine, hs, ht]
        constructor
        · intro h
          exfalso
          revert h
          split
          · split <;> simp
          · simp
        · rintro (h | h) <;> simp at h
  · intro t fid hne hfind
    have hbeq : (fid == "") = false := by
      simpa using hne
    simp [getFieldPosition, hbeq, hfind]

/-- Witness for the amended C2 at a concrete input: a field id that resolves
to no field yields the table-center fallback anchor. -/
theorem C2_routing_amended_witness :
    getFieldPosition tableC2a (some "zz") =
      getCenter tableC2a.x tableC2a.y TABLE_SIZE.width (calculateTableHeight tableC2a) :=
  (C2_routing_amended [] relC2).2 tableC2a "zz" (by decide) rfl

/-! ## C6 -/

/-- A possibly undefined member is an array exactly when it is a defined
jarr value. -/
lemma undefIsArray_iff (mv : Option Json) :
    undefIsArray mv = true ↔ ∃ l, mv = some (.jarr l) := by
  cases mv with
  | none => simp [undefIsArray]
  | some v => cases v <;> simp [undefIsArray, isArray]

/-- Arrays are truthy. -/
lemma undefTruthy_of_isArray (mv : Option Json) (h : undefIsArray mv = true) :
    undefTruthy mv = true := by
  rcases (undefIsArray_iff mv).mp h with ⟨l, rfl⟩
  rfl

/-- hasArrayMember on an object is the array test of the looked-up member. -/
lemma hasArrayMember_jobj (entries : List (String × Json)) (key : String) :
    hasArrayMember (.jobj entries) key =
      undefIsArray ((entries.find? (fun e => e.1 == key)).map (fun e => e.2)) := by
  cases h : (entries.find? (fun e => e.1 == key)).map (fun e => e.2) with
  | none => simp [hasArrayMember, undefIsArray, h]
  | some v => cases v <;> simp [hasArrayMember, undefIsArray, isArray, h]

/-- C6: the import handler accepts the parsed input exactly when it has both a
tables member and a relationships member that are arrays; in every other case
(unparsable input included) it reports an error and leaves the state
completely unchanged, and on acceptance it replaces the state wholesale with
exactly the two arrays. -/
theorem C6_import_guard (st : Json × Json) (parsed : Option Json) :
    ((handleFileChange st parsed).2 = false ↔
      ∃ d, parsed = some d ∧ hasArrayMember d "tables" = true ∧
        hasArrayMember d "relationships" = true) ∧
    ((handleFileChange st parsed).2 = true → (handleFileChange st parsed).1 = st) ∧
    ((handleFileChange st parsed).2 = false →
      ∃ ts rs, (handleFileChange st parsed).1 = (Json.jarr ts, Json.jarr rs)) := by
  cases parsed with
  | none => simp [handleFileChange]
  | some d =>
    cases d with
    | jnull => simp [handleFileChange, jsGetMember, hasArrayMember]
    | jbool b => simp [handleFileChange, jsGetMember, hasArrayMember, undefTruthy, undefIsArray]
    | jnum q => simp [handleFileChange, jsGetMember, hasArrayMember, undefTruthy, undefIsArray]
    | jstr s => simp [handleFileChange, jsGetMember, hasArrayMember, undefTruthy, undefIsArray]
    | jarr items => simp [handleFileChange, jsGetMember, hasArrayMember, undefTruthy, undefIsArray]
    | jobj entries =>
      simp only [handleFileChange, jsGetMember]
      have hat := hasArrayMember_jobj entries "tables"
      have har := hasArrayMember_jobj entries "relationships"
      by_cases hc : (undefTruthy ((entries.find? (fun e => e.1 == "tables")).map (fun e => e.2))
          && undefIsArray ((entries.find? (fun e => e.1 == "tables")).map (fun e => e.2))
          && undefTruthy ((entries.find? (fun e => e.1 == "relationships")).map (fun e => e.2))
          && undefIsArray ((entries.find? (fun e => e.1 == "relationships")).map (fun e => e.2))) = true
      · rw [if_pos hc]
        rw [Bool.and_eq_true, Bool.and_eq_true, Bool.and_eq_true] at hc
        obtain ⟨⟨⟨h1, h2⟩, h3⟩, h4⟩ := hc
        rcases (undefIsArray_iff _).mp h2 with ⟨ts, hts⟩
        rcases (undefIsArray_iff _).mp h4 with ⟨rs, hrs⟩
        refine ⟨?_, ?_, ?_⟩
        · simp only [eq_self_iff_true, true_iff]
          exact ⟨Json.jobj entries, rfl, by rw [hat, h2], by rw [har, h4]⟩
        · intro h
          simp at h
        · intro _
          exact ⟨ts, rs, by rw [hts, hrs]; rfl⟩
      · rw [if_neg hc]
        refine ⟨?_, fun _ => rfl, ?_⟩
        · constructor
          · intro h
            simp at h
          · rintro ⟨d, hd, hd1, hd2⟩
            injection hd with hd
            subst hd
            rw [hat] at hd1
            rw [har] at hd2
            exact absurd (by simp [hd1, hd2, undefTruthy_of_isArray _ hd1,
              undefTruthy_of_isArray _ hd2]) hc
        · intro h
          simp at h

/-- Witness for C6 at a concrete input: a parsed number is rejected and the
state is preserved. -/
theorem C6_import_guard_witness :
    (handleFileChange (Json.jnull, Json.jnull) (some (Json.jnum 5))).1 =
      (Json.jnull, Json.jnull) :=
  (C6_import_guard (Json.jnull, Json.jnull) (some (Json.jnum 5))).2.1 rfl

/-! ## C5 -/

/-- A colorless relationship touching field F1 of table T1, used by the C5
input; such relationships are reachable through import, whose element shape is
not validated. -/
def relC5a : Relationship :=
  { id := "ra", sourceTableId := "T1", sourceFieldId := some "F1",
    targetTableId := "T3", targetFieldId := none, cardinality := "1:N", color := none }

/-- A colored relationship also touching field F1 of table T1, used by the C5
input; its color is not a palette color. -/
def relC5b : Relationship :=
  { id := "rb", sourceTableId := "T1", sourceFieldId := some "F1",
    targetTableId := "T3", targetFieldId := some "X", cardinality := "1:N",
    color := some "#123456" }

/-- The source endpoint of the C5 connect gesture: table T1, field F1. -/
def csC5s : ConnectionState := { tableId := "T1", fieldId := some "F1" }

/-- The target endpoint of the C5 connect gesture: table T2, field F2,
touched by no existing relationship. -/
def csC5e : ConnectionState := { tableId := "T2", fieldId := some "F2" }

/-- C5 counterexample: an existing relationship (relC5b) touches the specific
source field and carries color #123456, yet the created relationship receives
a palette color instead, because the cascade only consults the FIRST
relationship matching each step (here the colorless relC5a) and falls through
when it has no color.  This contradicts the claim that priority (1), the color
of an existing relationship touching the source field, wins here. -/
theorem C5_counterexample :
    chooseColor [relC5a, relC5b] csC5s csC5e 0 = "#ef4444" ∧
    fieldInheritPred csC5s relC5b = true ∧
    relC5b.color = some "#123456" ∧
    chooseColor [relC5a, relC5b] csC5s csC5e 0 ≠ "#123456" ∧
    "#123456" ∉ CONNECTION_COLORS ∧
    chooseColor [relC5a, relC5b] csC5s csC5e 0 ∈ CONNECTION_COLORS := by
  refine ⟨rfl, rfl, rfl, ?_, ?_, ?_⟩ <;> decide

/-- A field-level match on an endpoint is in particular a table-level match
on the endpoint table. -/
lemma tableInheritPred_of_fieldInheritPred (cs : ConnectionState) (r : Relationship)
    (h : fieldInheritPred cs r = true) : tableInheritPred cs.tableId r = true := by
  unfold fieldInheritPred at h
  unfold tableInheritPred
  simp only [Bool.or_eq_true, Bool.and_eq_true] at h ⊢
  rcases h with ⟨h, _⟩ | ⟨h, _⟩
  · exact Or.inl h
  · exact Or.inr h

/-- C5 amended: on a successful (non-self, non-duplicate) connect, the new
relationship receives the cascaded color, where each cascade step consults
only the FIRST existing relationship matching its predicate (source field,
target field, source table, target table, in that order) and inherits only
when that relationship has a truthy color, otherwise falling through to the
next step; when no existing relationship touches either table, the color is
always drawn from the fixed palette. -/
theorem C5_color_priority (rels : List Relationship) (start endp : ConnectionState)
    (newId : String) (k : ℕ)
    (hself : ¬((start.tableId == endp.tableId) && (start.fieldId == endp.fieldId)) = true)
    (hdup : ¬(rels.any fun r => relDup r start endp) = true) :
    handleConnect rels start endp newId k =
      rels ++ [newRelationship rels start endp newId k] ∧
    (newRelationship rels start endp newId k).color =
      some (chooseColor rels start endp k) ∧
    (∀ c, inheritFieldColor rels start = some c →
      chooseColor rels start endp k = c) ∧
    (inheritFieldColor rels start = none →
      ∀ c, inheritFieldColor rels endp = some c → chooseColor rels start endp k = c) ∧
    (inheritFieldColor rels start = none → inheritFieldColor rels endp = none →
      ∀ c, inheritTableColor rels start.tableId = some c →
        chooseColor rels start endp k = c) ∧
    (inheritFieldColor rels start = none → inheritFieldColor rels endp = none →
      inheritTableColor rels start.tableId = none →
      ∀ c, inheritTableColor rels endp.tableId = some c →
        chooseColor rels start endp k = c) ∧
    (inheritFieldColor rels start = none → inheritFieldColor rels endp = none →
      inheritTableColor rels start.tableId = none →
      inheritTableColor rels endp.tableId = none →
      chooseColor rels start endp k = palettePick k) ∧
    ((∀ r ∈ rels, tableInheritPred start.tableId r = false ∧
        tableInheritPred endp.tableId r = false) →
      chooseColor rels start endp k ∈ CONNECTION_COLORS) := by
  refine ⟨?_, rfl, ?_, ?_, ?_, ?_, ?_, ?_⟩
  · unfold handleConnect
    rw [if_neg hself, if_neg hdup]
  · intro c h
    simp [chooseColor, h]
  · intro h0 c h
    simp [chooseColor, h0, h]
  · intro h0 h1 c h
    simp [chooseColor, h0, h1, h]
  · intro h0 h1 h2 c h
    simp [chooseColor, h0, h1, h2, h]
  · intro h0 h1 h2 h3
    simp [chooseColor, h0, h1, h2, h3]
  · intro hnone
    have hfind : ∀ tid, (tid = start.tableId ∨ tid = endp.tableId) →
        rels.find? (tableInheritPred tid) = none := by
      intro tid htid
      rw [List.find?_eq_none]
      intro x hx
      rcases htid with rfl | rfl
      · simp [(hnone x hx).1]
      · simp [(hnone x hx).2]
    have hf : ∀ cs : ConnectionState, (cs.tableId = start.tableId ∨ cs.tableId = endp.tableId) →
        inheritFieldColor rels cs = none := by
      intro cs hcs
      unfold inheritFieldColor
      by_cases hst : strTruthy cs.fieldId = true
      · rw [if_pos hst]
        have : rels.find? (fieldInheritPred cs) = none := by
          rw [List.find?_eq_none]
          intro x hx hpx
          have htp := tableInheritPred_of_fieldInheritPred cs x hpx
          rcases hcs with hcs | hcs <;> rw [hcs] at htp
          · rw [(hnone x hx).1] at htp
            exact Bool.false_ne_true htp
          · rw [(hnone x hx).2] at htp
            exact Bool.false_ne_true htp
        rw [this]
      · rw [if_neg hst]
    have ht : ∀ tid, (tid = start.tableId ∨ tid = endp.tableId) →
        inheritTableColor rels tid = none := by
      intro tid htid
      unfold inheritTableColor
      rw [hfind tid htid]
    have hpal : chooseColor rels start endp k = palettePick k := by
      simp [chooseColor, hf start (Or.inl rfl), hf endp (Or.inr rfl),
        ht start.tableId (Or.inl rfl), ht endp.tableId (Or.inr rfl)]
    rw [hpal]
    unfold palettePick
    have hlt : k % CONNECTION_COLORS.length < CONNECTION_COLORS.length :=
      Nat.mod_lt _ (by decide)
    rw [List.getD_eq_getElem _ _ hlt]
    exact List.getElem_mem hlt

/-- Witness for the amended C5 at a concrete input: connecting two tables
touched by no existing relationship yields a palette color. -/
theorem C5_color_priority_witness :
    chooseColor [] { tableId := "T1", fieldId := none }
      { tableId := "T2", fieldId := none } 7 ∈ CONNECTION_COLORS :=
  (C5_color_priority [] { tableId := "T1", fieldId := none }
    { tableId := "T2", fieldId := none } "n" 7
    (by decide) (by decide)).2.2.2.2.2.2.2 (by simp)

/-! ## C8 -/

/-- C8: for rectangles of positive width and height, getIntersection returns
center1 unchanged in the degenerate case, and otherwise a point lying on the
boundary of the axis-aligned rectangle of size1 centered at center1 (both
half-extent bounds hold and at least one holds with equality, covering all
four exit quadrants) and on the ray from center1 toward center2 (a positive
multiple of the direction vector). -/
theorem C8_intersection (center1 center2 : Point) (size1 : Size)
    (hw : 0 < size1.width) (hh : 0 < size1.height) :
    (center1 = center2 → getIntersection center1 size1 center2 = center1) ∧
    (center1 ≠ center2 →
      |(getIntersection center1 size1 center2).x - center1.x| ≤ size1.width / 2 ∧
      |(getIntersection center1 size1 center2).y - center1.y| ≤ size1.height / 2 ∧
      (|(getIntersection center1 size1 center2).x - center1.x| = size1.width / 2 ∨
       |(getIntersection center1 size1 center2).y - center1.y| = size1.height / 2) ∧
      ∃ t : ℚ, 0 < t ∧
        (getIntersection center1 size1 center2).x = center1.x + t * (center2.x - center1.x) ∧
        (getIntersection center1 size1 center2).y = center1.y + t * (center2.y - center1.y)) := by
  constructor
  · intro h
    subst h
    simp [getIntersection]
  · intro hne
    have hcond : ¬(center2.x - center1.x = 0 ∧ center2.y - center1.y = 0) := by
      rintro ⟨h1, h2⟩
      apply hne
      ext
      · linarith
      · linarith
    by_cases hcase :
        |center2.x - center1.x| > size1.width / size1.height * |center2.y - center1.y|
    · have hgi : getIntersection center1 size1 center2 =
          { x := center1.x + (center2.x - center1.x)
                  * ((size1.width / 2) / |center2.x - center1.x|),
            y := center1.y + (center2.y - center1.y)
                  * ((size1.width / 2) / |center2.x - center1.x|) } := by
        simp only [getIntersection]
        rw [if_neg hcond, if_pos hcase]
      have hdxpos : 0 < |center2.x - center1.x| :=
        lt_of_le_of_lt (by positivity) hcase
      have hdxne : |center2.x - center1.x| ≠ 0 := ne_of_gt hdxpos
      have hscalepos : 0 < (size1.width / 2) / |center2.x - center1.x| := by positivity
      have hxabs : |(center2.x - center1.x)
          * ((size1.width / 2) / |center2.x - center1.x|)| = size1.width / 2 := by
        rw [abs_mul, abs_of_pos hscalepos]
        field_simp
        ring
      have hkey : size1.width * |center2.y - center1.y|
          < size1.height * |center2.x - center1.x| := by
        have h2 := hcase
        rw [gt_iff_lt, div_mul_eq_mul_div, div_lt_iff₀ hh] at h2
        linarith
      have hyabs : |(center2.y - center1.y)
          * ((size1.width / 2) / |center2.x - center1.x|)| ≤ size1.height / 2 := by
        rw [abs_mul, abs_of_pos hscalepos, ← mul_div_assoc, div_le_iff₀ hdxpos]
        nlinarith [hkey]
      rw [hgi]
      dsimp only
      rw [add_sub_cancel_left, add_sub_cancel_left]
      exact ⟨le_of_eq hxabs, hyabs, Or.inl hxabs,
        ⟨(size1.width / 2) / |center2.x - center1.x|, hscalepos, by ring, by ring⟩⟩
    · have hle : |center2.x - center1.x|
          ≤ size1.width / size1.height * |center2.y - center1.y| := not_lt.mp hcase
      have hdy0 : center2.y - center1.y ≠ 0 := by
        intro h0
        have hdx0 : center2.x - center1.x = 0 := by
          have h1 : |center2.x - center1.x| ≤ 0 := by
            simpa [h0] using hle
          simpa [abs_nonpos_iff] using h1
        exact hcond ⟨hdx0, h0⟩
      have hdypos : 0 < |center2.y - center1.y| := abs_pos.mpr hdy0
      have hgi : getIntersection center1 size1 center2 =
          { x := center1.x + (center2.x - center1.x)
                  * ((size1.height / 2) / |center2.y - center1.y|),
            y := center1.y + (center2.y - center1.y)
                  * ((size1.height / 2) / |center2.y - center1.y|) } := by
        simp only [getIntersection]
        rw [if_neg hcond, if_neg hcase]
      have hscalepos : 0 < (size1.height / 2) / |center2.y - center1.y| := by positivity
      have hyabs : |(center2.y - center1.y)
          * ((size1.height / 2) / |center2.y - center1.y|)| = size1.height / 2 := by
        rw [abs_mul, abs_of_pos hscalepos]
        field_simp
        ring
      have hkey : size1.height * |center2.x - center1.x|
          ≤ size1.width * |center2.y - center1.y| := by
        have h2 := hle
        rw [div_mul_eq_mul_div, le_div_iff₀ hh] at h2
        linarith
      have hxabs : |(center2.x - center1.x)
          * ((size1.height / 2) / |center2.y - center1.y|)| ≤ size1.width / 2 := by
        rw [abs_mul, abs_of_pos hscalepos, ← mul_div_assoc, div_le_iff₀ hdypos]
        nlinarith [hkey]
      rw [hgi]
      dsimp only
      rw [add_sub_cancel_left, add_sub_cancel_left]
      exact ⟨hxabs, le_of_eq hyabs, Or.inr hyabs,
        ⟨(size1.height / 2) / |center2.y - center1.y|, hscalepos, by ring, by ring⟩⟩

/-- Witness for C8 at a concrete input: coinciding centers return the center
unchanged. -/
theorem C8_intersection_witness :
    getIntersection { x := 0, y := 0 } { width := 2, height := 2 } { x := 0, y := 0 } =
      { x := 0, y := 0 } :=
  (C8_intersection { x := 0, y := 0 } { x := 0, y := 0 } { width := 2, height := 2 }
    (by norm_num) (by norm_num)).1 rfl

/-! ## C9 -/

/-- With pairwise distinct field ids, looking up the id of the field at index
i finds exactly index i. -/
lemma findIdx?_get_of_nodup (l : List Field) (i : ℕ) (h : i < l.length)
    (hnd : (l.map Field.id).Nodup) :
    l.findIdx? (fun f => f.id == l[i].id) = some i := by
  induction l generalizing i with
  | nil => exact absurd h (by simp)
  | cons a tl ih =>
    rcases i with _ | j
    · simp [List.findIdx?_cons]
    · have hj : j < tl.length := by simpa using h
      simp only [List.map_cons, List.nodup_cons] at hnd
      have hmem : tl[j].id ∈ tl.map Field.id :=
        List.mem_map_of_mem _ (List.getElem_mem hj)
      have hne2 : a.id ≠ tl[j].id := by
        intro hEq
        exact hnd.1 (hEq ▸ hmem)
      simp [List.findIdx?_cons, hne2, ih j hj hnd.2]

/-- The description block height is never negative. -/
lemma getTableDescHeight_nonneg (t : Table) : 0 ≤ getTableDescHeight t := by
  cases hd : t.description with
  | none => simp [getTableDescHeight, hd]
  | some s =>
    simp only [getTableDescHeight, hd]
    split
    · norm_num
    · positivity

/-- The image block height is never negative. -/
lemma imageBlockHeight_nonneg (t : Table) : 0 ≤ imageBlockHeight t := by
  unfold imageBlockHeight
  split <;> norm_num

/-- Closed form of the anchor of the field at index i, on a table whose field
ids are pairwise distinct and truthy. -/
lemma getFieldPosition_index (t : Table) (i : ℕ) (h : i < t.fields.length)
    (hnd : (t.fields.map Field.id).Nodup)
    (hne : ∀ f ∈ t.fields, f.id ≠ "") :
    getFieldPosition t (some (t.fields[i].id)) =
      { x := t.x + TABLE_SIZE.width,
        y := t.y + (40 + getTableDescHeight t + imageBlockHeight t + 8
                     + (i : ℚ) * 33 + 33 / 2) } := by
  have hid : t.fields[i].id ≠ "" := hne _ (List.getElem_mem h)
  simp [getFieldPosition, hid, findIdx?_get_of_nodup t.fields i h hnd]

/-- C9: on a table whose field ids are pairwise distinct and truthy, the
vertical coordinate of the field anchor is strictly increasing in the field
index, and every field anchor lies within the rendered bounding box of the
table (horizontally within the fixed table width, vertically within the
computed table height). -/
theorem C9_field_anchor (t : Table)
    (hnd : (t.fields.map Field.id).Nodup)
    (hne : ∀ f ∈ t.fields, f.id ≠ "") :
    (∀ i j : ℕ, ∀ hi : i < t.fields.length, ∀ hj : j < t.fields.length, i < j →
      (getFieldPosition t (some (t.fields[i].id))).y <
      (getFieldPosition t (some (t.fields[j].id))).y) ∧
    (∀ i : ℕ, ∀ hi : i < t.fields.length,
      t.x ≤ (getFieldPosition t (some (t.fields[i].id))).x ∧
      (getFieldPosition t (some (t.fields[i].id))).x ≤ t.x + TABLE_SIZE.width ∧
      t.y ≤ (getFieldPosition t (some (t.fields[i].id))).y ∧
      (getFieldPosition t (some (t.fields[i].id))).y ≤
        t.y + calculateTableHeight t) := by
  have hdesc := getTableDescHeight_nonneg t
  have himg := imageBlockHeight_nonneg t
  constructor
  · intro i j hi hj hij
    rw [getFieldPosition_index t i hi hnd hne, getFieldPosition_index t j hj hnd hne]
    dsimp only
    have hcast : (i : ℚ) < (j : ℚ) := by exact_mod_cast hij
    linarith
  · intro i hi
    rw [getFieldPosition_index t i hi hnd hne]
    dsimp only
    have h0 : (0 : ℚ) ≤ (i : ℚ) := Nat.cast_nonneg i
    have hiN : (i : ℚ) + 1 ≤ (t.fields.length : ℚ) := by exact_mod_cast hi
    have hw : TABLE_SIZE.width = 280 := rfl
    unfold calculateTableHeight
    rw [hw]
    refine ⟨by linarith, le_refl _, by linarith, by linarith⟩

/-- A two-field table used by the C9 witness. -/
def tableC9 : Table :=
  { id := "t", name := "T", x := 0, y := 0,
    fields := [{ id := "a", name := "a", type := "INT", isPrimaryKey := false,
                 isForeignKey := false, isNullable := true },
               { id := "b", name := "b", type := "INT", isPrimaryKey := false,
                 isForeignKey := false, isNullable := true }] }

/-- Witness for C9 at a concrete input: the anchor of the second field sits
strictly below the anchor of the first. -/
theorem C9_field_anchor_witness :
    (getFieldPosition tableC9 (some "a")).y < (getFieldPosition tableC9 (some "b")).y :=
  (C9_field_anchor tableC9 (by decide) (by decide)).1 0 1 (by decide) (by decide) (by decide)

end ERD
